import Mathlib

/-!
Shallow embedding of the commit-history scanner of `oper` (src/model.rs,
src/utils.rs, src/report.rs), together with theorems settling the frozen
claims about it.

Conventions of the embedding:
* Machine integers are modelled as `Nat`/`Int`; the single place where the
  Rust code truncates (`i64 as u32` in `Classifier::classify`) is made
  explicit through `u32cast`, which reduces modulo `2^32`.
* Time is modelled at whole-second granularity (`git2::Time::seconds` is an
  `i64`; the sub-second part of `chrono::Utc::now()` never influences the
  whole-day arithmetic the claims are about).
* The git object database behind a repository path is an explicit input
  (`RepoSource`): either the repository fails to open, the revwalk cannot be
  created or seeded, or it yields a list of walk entries in time-descending
  walk order, each entry being a resolved commit or an unresolvable id.
* Strings are modelled by Lean `String`s restricted to ASCII content, where
  Rust's `to_ascii_lowercase` (and, on such content, `to_lowercase`) is
  per-character lowercasing.
-/

/-- Per-character ASCII lowercasing; model of Rust's `to_ascii_lowercase`
(`Char.toLower` lowercases exactly the range A-Z). On ASCII content it also
models `str::to_lowercase`. -/
def asciiLower (s : String) : String :=
  ⟨s.data.map Char.toLower⟩

/-- Whether `pat` is a prefix of `hay` (on character lists). -/
def startsWithL : List Char → List Char → Bool
  | _, [] => true
  | [], _ :: _ => false
  | h :: hs, p :: ps => h == p && startsWithL hs ps

/-- Whether `pat` occurs as a contiguous substring of the list `hay`;
model of Rust's `str::contains`. -/
def containsSubL (pat : List Char) : List Char → Bool
  | [] => startsWithL [] pat
  | h :: hs => startsWithL (h :: hs) pat || containsSubL pat hs

/-- String-level substring test, model of Rust's `str::contains`. -/
def strContains (hay pat : String) : Bool :=
  containsSubL pat.data hay.data

/-- Model of Rust's `i64 as u32` cast: truncation to the low 32 bits,
i.e. reduction modulo `2^32` (the result is the unsigned residue). -/
def u32cast (n : Int) : Nat :=
  (n % (4294967296 : Int)).toNat

/-- `git2::Time`: seconds since the epoch plus a timezone offset in minutes
(`Time::seconds` / `Time::offset_minutes`). Its `Ord` instance compares
`(seconds, offset)` lexicographically. -/
structure GitTime where
  seconds : Int
  offsetMinutes : Int
deriving DecidableEq, Repr

/-- `Repo` from src/model.rs: a local repository with absolute path,
manifest-relative path and a short description. -/
structure Repo where
  absPath : String
  relPath : String
  description : String
deriving DecidableEq, Repr

/-- The metadata of a resolved `git2::Commit` that the scanner reads:
commit time, summary, author name, author email, committer name, id and
full message. (`author_email` is carried because the spec's author filter
mentions it; `Classifier::classify` itself only reads the author name.) -/
structure CommitData where
  time : GitTime
  summary : String
  authorName : String
  authorEmail : String
  committerName : String
  commitId : String
  message : String
deriving DecidableEq, Repr

/-- One entry produced by the revwalk: a commit id that resolved to a full
commit object, or one that failed to resolve (`find_commit` error). -/
inductive WalkEntry where
  | resolved (c : CommitData)
  | unresolvable (err : String)
deriving DecidableEq, Repr

/-- The state of the git object database at one repository path, as the
scanner can observe it: `Repository::open` fails, `revwalk()` fails,
`push_head()` fails, or the walk yields `entries` (time-descending). -/
inductive RepoSource where
  | openFailed (err : String)
  | revwalkFailed (err : String)
  | pushHeadFailed (err : String)
  | walk (entries : List WalkEntry)
deriving DecidableEq, Repr

/-- `Classifier` from src/model.rs: a maximal age in days (`u32`, modelled
as a `Nat` that callers keep below `2^32`), an optional author pattern and
an optional message pattern. -/
structure Classifier where
  age : Nat
  author : Option String
  message : Option String
deriving DecidableEq, Repr

/-- `Classifier::new`: stores the age and the author pattern verbatim and
lowercases only the message pattern (`message.map(str::to_lowercase)`). -/
def Classifier.new (age : Nat) (author : Option String) (message : Option String) :
    Classifier :=
  { age := age, author := author, message := message.map asciiLower }

/-- The age test of `Classifier::classify`:
`diff.num_days() as u32 <= self.age`, where `diff.num_days()` is the
whole-day difference (truncated toward zero) between `now` and the commit
time converted to UTC. -/
def ageOkB (cl : Classifier) (now : Int) (c : CommitData) : Bool :=
  decide (u32cast ((now - c.time.seconds).tdiv 86400) ≤ cl.age)

/-- The message filter of `Classifier::classify`: with no pattern it
passes; otherwise the commit message (ASCII-lowercased,
`unwrap_or("")` for a missing message is the empty-string default already
folded into `message`) must contain the stored pattern. -/
def messagePass (cl : Classifier) (c : CommitData) : Bool :=
  match cl.message with
  | none => true
  | some pat => strContains (asciiLower c.message) pat

/-- The author filter of `Classifier::classify`: with no pattern it passes;
otherwise the author NAME (ASCII-lowercased) must contain the stored
pattern verbatim. The author email is never consulted. -/
def authorPass (cl : Classifier) (c : CommitData) : Bool :=
  match cl.author with
  | none => true
  | some pat => strContains (asciiLower c.authorName) pat

/-- `Classifier::classify` from src/model.rs lines 257-274: computes the
age test, lets `abort` be its negation, then conjoins the message filter
and the author filter into `include`. Returns `(include, abort)`. -/
def classify (cl : Classifier) (now : Int) (c : CommitData) : Bool × Bool :=
  let include0 := ageOkB cl now c
  let abort := !include0
  let include1 := include0 && messagePass cl c
  let include2 := include1 && authorPass cl c
  (include2, abort)

/-- `RepoCommit` from src/model.rs: a commit joined with its repository. -/
structure RepoCommit where
  repo : Repo
  timestamp : GitTime
  summary : String
  author : String
  committer : String
  commitId : String
  message : String
deriving DecidableEq, Repr

/-- `RepoCommit::from`: materializes a `RepoCommit` from a repository and a
resolved commit. -/
def RepoCommit.ofCommit (repo : Repo) (c : CommitData) : RepoCommit :=
  { repo := repo, timestamp := c.time, summary := c.summary,
    author := c.authorName, committer := c.committerName,
    commitId := c.commitId, message := c.message }

/-- One `progress.println` message emitted during the scan, as a pair of
the repository's relative path and the message text. -/
structure LogEntry where
  repoRelPath : String
  message : String
deriving DecidableEq, Repr

/-- The commit loop of `MultiRepoHistory::from` (src/model.rs lines
82-108), walking the entries of one repository: an unresolvable id makes
the whole closure `return None` after logging "Failed to find commit"
(discarding every commit collected so far for this repository); a resolved
commit is classified, pushed when `include`, and when `abort` the loop
breaks with the commits collected so far. -/
def walkLoop (cl : Classifier) (now : Int) (repo : Repo) :
    List WalkEntry → Option (List RepoCommit) × List LogEntry
  | [] => (some [], [])
  | WalkEntry.unresolvable e :: _ =>
      (none, [⟨repo.relPath, "Failed to find commit: " ++ e⟩])
  | WalkEntry.resolved c :: rest =>
      let ia := classify cl now c
      let here := if ia.1 then [RepoCommit.ofCommit repo c] else []
      if ia.2 then (some here, [])
      else
        let r := walkLoop cl now repo rest
        (r.1.map (fun cs => here ++ cs), r.2)

/-- The per-repository closure of `MultiRepoHistory::from` (src/model.rs
lines 41-109): opening the repository, creating and seeding the revwalk
(each failure logged with the repository's relative path and yielding
`None`, i.e. zero commits), then running the walk loop. -/
def scanRepo (cl : Classifier) (now : Int) :
    Repo × RepoSource → Option (List RepoCommit) × List LogEntry
  | (repo, RepoSource.openFailed e) =>
      (none, [⟨repo.relPath, "Failed to open: " ++ e⟩])
  | (repo, RepoSource.revwalkFailed e) =>
      (none, [⟨repo.relPath, "Failed to create revwalk: " ++ e⟩])
  | (repo, RepoSource.pushHeadFailed e) =>
      (none, [⟨repo.relPath, "Failed to query history: " ++ e⟩])
  | (repo, RepoSource.walk entries) => walkLoop cl now repo entries

/-- The comparator of the final sort (src/model.rs line 116):
`commits.sort_unstable_by(|a, b| a.timestamp.cmp(&b.timestamp).reverse())`.
`a` may precede `b` exactly when `cmp(a.timestamp, b.timestamp).reverse()`
is not `Greater`, i.e. when `a.timestamp` is not lexicographically below
`b.timestamp` in `git2::Time`'s `(seconds, offset)` order. -/
def timeGe (a b : RepoCommit) : Bool :=
  decide (b.timestamp.seconds < a.timestamp.seconds ∨
    (a.timestamp.seconds = b.timestamp.seconds ∧
      b.timestamp.offsetMinutes ≤ a.timestamp.offsetMinutes))

/-- The result structure `MultiRepoHistory` (src/model.rs lines 12-17). -/
structure MultiRepoHistory where
  repos : List Repo
  commits : List RepoCommit
  maxWidthRepo : Nat
  maxWidthCommitter : Nat
deriving DecidableEq, Repr

/-- Assembling the snapshot from the input repositories and the collected
(unsorted) commits: the width fields (lines 113-114), the descending sort
(line 116) and the final structure (lines 117-122). The unstable sort is
modelled by a merge sort over the same comparator; the claims treat the
order of equal keys as unspecified. -/
def assembleSnapshot (input : List (Repo × RepoSource)) (collected : List RepoCommit) :
    MultiRepoHistory :=
  { repos := input.map Prod.fst
    commits := List.mergeSort collected timeGe
    maxWidthRepo := ((input.map (fun r => r.1.description.length)).foldr max 0)
    maxWidthCommitter := ((collected.map (fun c => c.committer.length)).foldr max 0) }

/-- `MultiRepoHistory::from` (src/model.rs lines 20-123): scans every
repository (rayon's indexed `par_iter().filter_map(...).flatten().collect()`
concatenates the per-repository results in input order, independent of
scheduling), then assembles the snapshot. The second component collects the
`progress.println` log. In the Rust code the function always returns `Ok`;
the `Result` wrapper is omitted. -/
def multiRepoHistoryFrom (input : List (Repo × RepoSource)) (cl : Classifier)
    (now : Int) : MultiRepoHistory × List LogEntry :=
  let results := input.map (scanRepo cl now)
  let collected := (results.filterMap Prod.fst).flatten
  (assembleSnapshot input collected, (results.map Prod.snd).flatten)

/-- The per-repository contribution to the collected commit list: a failed
repository contributes nothing, a successful one its commit list. -/
def repoContribution (cl : Classifier) (now : Int) (r : Repo × RepoSource) :
    List RepoCommit :=
  ((scanRepo cl now r).1).getD []

/-- Writes the results of completed repository scans into an index-addressed
slot table, in the order the schedule says the workers complete. -/
def fillSched (f : Nat → List RepoCommit) :
    List Nat → List (Option (List RepoCommit)) → List (Option (List RepoCommit))
  | [], slots => slots
  | i :: rest, slots => fillSched f rest (slots.set i (some (f i)))

/-- A schedule-explicit model of the concurrent scan: workers complete the
repositories in the order given by `sched`, each depositing its repository's
contribution into the slot of that repository's input index; the collection
phase then reads the slots in input order, so the snapshot it assembles can
be compared with the sequential `multiRepoHistoryFrom`. -/
def scanScheduled (input : List (Repo × RepoSource)) (cl : Classifier) (now : Int)
    (sched : List Nat) : MultiRepoHistory :=
  let f := fun i => match input[i]? with
    | some r => repoContribution cl now r
    | none => []
  let slots := fillSched f sched (List.replicate input.length none)
  assembleSnapshot input ((slots.filterMap id).flatten)

/-! Shared concrete sample data used by witnesses and counterexamples. -/

/-- A classifier with a 100-day window and no author/message filter (the
CLI defaults: `--days` defaults to 100, the two patterns to absent). -/
def cNone : Classifier := ⟨100, none, none⟩

/-- A sample commit whose time (UTC seconds) is the argument. -/
def commitAt (t : Int) : CommitData :=
  { time := ⟨t, 0⟩, summary := "s", authorName := "alice",
    authorEmail := "alice@example.com", committerName := "carol",
    commitId := "c1", message := "hello world" }

/-- A sample repository. -/
def repoA : Repo := ⟨"/base/a", "a", "a"⟩

/-- A second sample repository. -/
def repoB : Repo := ⟨"/base/b", "b", "b"⟩

/-! Helper lemmas. -/

/-- `u32cast` is the identity on unsigned values below `2^32`. -/
lemma u32cast_ofNat (A : Nat) (h : A < 4294967296) : u32cast (A : Int) = A := by
  unfold u32cast
  omega

/-- The comparator of the final sort is transitive. -/
lemma timeGe_trans (a b c : RepoCommit) (h1 : timeGe a b) (h2 : timeGe b c) :
    timeGe a c := by
  simp only [timeGe, decide_eq_true_eq] at h1 h2 ⊢
  omega

/-- The comparator of the final sort is total. -/
lemma timeGe_total (a b : RepoCommit) : timeGe a b || timeGe b a := by
  simp only [timeGe, Bool.or_eq_true, decide_eq_true_eq]
  omega

/-- C3: the classifier's age window is inclusive at the boundary. For a
commit whose whole-day age relative to `now` is `A` (with `A` below `2^32`,
which holds for every commit time chrono can represent), inclusion implies
`A ≤ max_age_days` under any filters, and when the author and message
filters pass, inclusion holds exactly when `A ≤ max_age_days`; so a commit
of age exactly `D` is included and one of age `D + 1` is excluded. -/
theorem classify_age_boundary (cl : Classifier) (now : Int) (c : CommitData)
    (A : Nat) (hA : (now - c.time.seconds).tdiv 86400 = (A : Int))
    (hlt : A < 4294967296) :
    ((classify cl now c).1 = true → A ≤ cl.age) ∧
    (messagePass cl c = true → authorPass cl c = true →
      ((classify cl now c).1 = true ↔ A ≤ cl.age)) := by
  have hcast : u32cast ((now - c.time.seconds).tdiv 86400) = A := by
    rw [hA]; exact u32cast_ofNat A hlt
  constructor
  · intro h
    simp only [classify, ageOkB, hcast, Bool.and_eq_true, decide_eq_true_eq] at h
    exact h.1.1
  · intro hm ha
    simp only [classify, ageOkB, hcast, Bool.and_eq_true, decide_eq_true_eq, hm, ha,
      and_true]

/-- Witness for C3 at a concrete input: a commit exactly 7 whole days old
against `max_age_days = 7` (and, the filters being absent, it is in fact
included). -/
theorem classify_age_boundary_witness :
    (((0 : Int) - (commitAt (-604800)).time.seconds).tdiv 86400 = ((7 : Nat) : Int)) ∧
    (7 : Nat) < 4294967296 ∧
    (messagePass ⟨7, none, none⟩ (commitAt (-604800)) = true) ∧
    (authorPass ⟨7, none, none⟩ (commitAt (-604800)) = true) ∧
    ((classify ⟨7, none, none⟩ 0 (commitAt (-604800))).1 = true ↔ 7 ≤ 7) := by
  refine ⟨by decide, by decide, by decide, by decide, ?_⟩
  exact (classify_age_boundary ⟨7, none, none⟩ 0 (commitAt (-604800)) 7
    (by decide) (by decide)).2 (by decide) (by decide)

/-- C4: the early-stop signal of the classifier is exactly the negation of
the age test, and it never depends on the configured author or message
patterns: replacing them by any others leaves `abort_walk` unchanged. -/
theorem classify_abort_iff_age (cl : Classifier) (now : Int) (c : CommitData)
    (a2 : Option String) (m2 : Option String) :
    ((classify cl now c).2 = !ageOkB cl now c) ∧
    ((classify ⟨cl.age, a2, m2⟩ now c).2 = (classify cl now c).2) ∧
    ((classify cl now c).2 = true → (classify cl now c).1 = false) := by
  refine ⟨rfl, rfl, ?_⟩
  intro h
  simp only [classify, Bool.not_eq_true'] at h ⊢
  simp [h]

/-- The author filter as the SPEC words it (for comparison with the code):
the pattern is case-folded at construction, and a commit passes when the
author's name OR the author's email, case-folded, contains it. -/
def authorOkSpec (pattern : String) (c : CommitData) : Bool :=
  let p := asciiLower pattern
  strContains (asciiLower c.authorName) p || strContains (asciiLower c.authorEmail) p

/-- A commit authored by Alice, with a capitalized author name. -/
def aliceCommit : CommitData :=
  { time := ⟨0, 0⟩, summary := "s", authorName := "Alice",
    authorEmail := "alice@example.com", committerName := "carol",
    commitId := "c2", message := "fix" }

/-- C5 counterexample: with the configured pattern "Alice", the spec's
author filter passes `aliceCommit` (case-folded name contains the
case-folded pattern), but the code excludes it: `Classifier::new` stores
the author pattern verbatim (only the message pattern is lowercased) and
`classify` compares it against the ASCII-lowercased author NAME, so the
capitalized pattern never matches; the email is never consulted. With no
author pattern the same commit is included, pinning the failure on the
author filter. -/
theorem author_filter_counterexample :
    authorOkSpec "Alice" aliceCommit = true ∧
    (classify (Classifier.new 100 (some "Alice") none) 0 aliceCommit).1 = false ∧
    (classify (Classifier.new 100 none none) 0 aliceCommit).1 = true := by
  decide

/-- C5 as amended: when an author_substring is configured, a commit passes
the author filter exactly when the author's NAME, ASCII-lowercased,
contains the pattern exactly as configured — the pattern is stored verbatim
at construction (not case-folded) and the author's email is never examined;
with no author_substring configured every commit passes the author filter.
Inclusion decomposes as age test AND message filter AND this author
filter. -/
theorem classify_author_filter (a : Nat) (pat : String) (m : Option String)
    (now : Int) (c : CommitData) :
    ((Classifier.new a (some pat) m).author = some pat) ∧
    (authorPass (Classifier.new a (some pat) m) c
      = strContains (asciiLower c.authorName) pat) ∧
    (authorPass (Classifier.new a none m) c = true) ∧
    ((classify (Classifier.new a (some pat) m) now c).1
      = (ageOkB (Classifier.new a (some pat) m) now c
          && messagePass (Classifier.new a (some pat) m) c
          && strContains (asciiLower c.authorName) pat)) := by
  exact ⟨rfl, rfl, rfl, rfl⟩

/-- C10 counterexample: a commit exactly one day in the future (commit
time `86400`, `now = 0`, so the whole-day difference is `-1 < 0`) together
with the configurable age `u32::MAX = 4294967295`: the wrapped day count is
`2^32 - 1`, which does NOT exceed this age, so the classifier INCLUDES the
commit and does not signal abort — refuting the claim's "for every
max_age_days value". -/
theorem future_commit_counterexample :
    ((0 : Int) < (commitAt 86400).time.seconds) ∧
    (((0 : Int) - (commitAt 86400).time.seconds).tdiv 86400 < 0) ∧
    (classify ⟨4294967295, none, none⟩ 0 (commitAt 86400)).1 = true ∧
    (classify ⟨4294967295, none, none⟩ 0 (commitAt 86400)).2 = false := by
  decide

/-- C10 as amended: for a commit far enough in the future that the signed
whole-day difference `d` is negative (and above `-2^32`, which holds for
every chrono-representable time), the cast wraps `d` to `2^32 + d`; for
every `max_age_days` BELOW `2^32 + d` (in particular every realistic
value) the classifier returns `include = false` and `abort_walk = true`. -/
theorem classify_future_commit (cl : Classifier) (now : Int) (c : CommitData)
    (hneg : (now - c.time.seconds).tdiv 86400 < 0)
    (hrange : -4294967296 < (now - c.time.seconds).tdiv 86400)
    (hage : (cl.age : Int) < 4294967296 + (now - c.time.seconds).tdiv 86400) :
    (classify cl now c).1 = false ∧ (classify cl now c).2 = true := by
  have hfail : ageOkB cl now c = false := by
    simp only [ageOkB, decide_eq_false_iff_not, u32cast]
    omega
  simp [classify, hfail]

/-- Witness for C10 as amended: a commit one whole day in the future
against the default 100-day window is excluded and aborts the walk. -/
theorem classify_future_commit_witness :
    (((0 : Int) - (commitAt 86400).time.seconds).tdiv 86400 < 0) ∧
    (-4294967296 < ((0 : Int) - (commitAt 86400).time.seconds).tdiv 86400) ∧
    ((cNone.age : Int) < 4294967296 + ((0 : Int) - (commitAt 86400).time.seconds).tdiv 86400) ∧
    ((classify cNone 0 (commitAt 86400)).1 = false ∧
      (classify cNone 0 (commitAt 86400)).2 = true) := by
  exact ⟨by decide, by decide, by decide,
    classify_future_commit cNone 0 (commitAt 86400) (by decide) (by decide) (by decide)⟩

/-- A walk whose entries up to some point are all resolved and non-aborting
and then hit an unresolvable id yields `None` (the whole repository's
commits are dropped) and logs the resolution failure with the repository's
relative path. -/
lemma walkLoop_unresolvable (cl : Classifier) (now : Int) (repo : Repo)
    (pre : List WalkEntry) (e : String) (rest : List WalkEntry)
    (hpre : ∀ x ∈ pre, ∃ cd, x = WalkEntry.resolved cd ∧ (classify cl now cd).2 = false) :
    ((walkLoop cl now repo (pre ++ WalkEntry.unresolvable e :: rest)).1 = none) ∧
    ((⟨repo.relPath, "Failed to find commit: " ++ e⟩ : LogEntry)
      ∈ (walkLoop cl now repo (pre ++ WalkEntry.unresolvable e :: rest)).2) := by
  induction pre with
  | nil => simp [walkLoop]
  | cons x pre ih =>
    obtain ⟨cd, hx, habort⟩ := hpre x (List.mem_cons_self x pre)
    subst hx
    have ih2 := ih (fun y hy => hpre y (List.mem_cons_of_mem _ hy))
    simp only [List.cons_append, walkLoop, habort, Bool.false_eq_true, if_false,
      List.append_eq, ih2.1, Option.map_none']
    exact ⟨trivial, ih2.2⟩

/-- A repository whose scan yields `None` contributes no commits: the
snapshot's commit sequence is the one the remaining repositories produce. -/
lemma snapshot_commits_drop_failed (cl : Classifier) (now : Int)
    (l1 l2 : List (Repo × RepoSource)) (x : Repo × RepoSource)
    (hx : (scanRepo cl now x).1 = none) :
    (multiRepoHistoryFrom (l1 ++ x :: l2) cl now).1.commits
      = (multiRepoHistoryFrom (l1 ++ l2) cl now).1.commits := by
  simp [multiRepoHistoryFrom, assembleSnapshot, hx]

/-- A log entry a repository's scan emits appears in the scan's log. -/
lemma snapshot_log_mem (cl : Classifier) (now : Int)
    (l1 l2 : List (Repo × RepoSource)) (x : Repo × RepoSource)
    (entry : LogEntry) (hentry : entry ∈ (scanRepo cl now x).2) :
    entry ∈ (multiRepoHistoryFrom (l1 ++ x :: l2) cl now).2 := by
  simp only [multiRepoHistoryFrom, List.mem_flatten, List.mem_map]
  exact ⟨(scanRepo cl now x).2, ⟨scanRepo cl now x, ⟨x, by simp, rfl⟩, rfl⟩, hentry⟩

/-- C1 counterexample: one repository whose walk yields a commit the
classifier includes, then an unresolvable id, then another commit. The
first commit was already collected when the resolution failure hits, yet
the snapshot holds NO commits: the code abandons the whole repository
(`return None`) instead of skipping the bad id, and the result structure
carries no missing-commit counter at all. -/
theorem unresolvable_commit_cex :
    ((classify cNone 0 (commitAt 0)).1 = true) ∧
    ((multiRepoHistoryFrom
        [(repoA, RepoSource.walk
          [WalkEntry.resolved (commitAt 0),
           WalkEntry.unresolvable "gone",
           WalkEntry.resolved (commitAt (-86400))])] cNone 0).1.commits = []) := by
  have habort : (classify cNone 0 (commitAt 0)).2 = false := by decide
  refine ⟨by decide, ?_⟩
  simp [multiRepoHistoryFrom, assembleSnapshot, scanRepo, walkLoop, habort]

/-- C1 as amended: when a visited commit id cannot be resolved (and the
commits walked before it did not abort the walk), the repository's walk is
abandoned — the closure returns `None`, so that repository contributes ZERO
commits to the snapshot and the commits already collected for it are
discarded; the failure is logged with the repository's relative path. No
missing-commit tally exists in the result structure. -/
theorem unresolvable_commit_drops_repo (cl : Classifier) (now : Int) (repo : Repo)
    (pre : List WalkEntry) (e : String) (rest : List WalkEntry)
    (hpre : ∀ x ∈ pre, ∃ cd, x = WalkEntry.resolved cd ∧ (classify cl now cd).2 = false) :
    ((walkLoop cl now repo (pre ++ WalkEntry.unresolvable e :: rest)).1 = none) ∧
    ((⟨repo.relPath, "Failed to find commit: " ++ e⟩ : LogEntry)
      ∈ (walkLoop cl now repo (pre ++ WalkEntry.unresolvable e :: rest)).2) ∧
    (∀ l1 l2, (multiRepoHistoryFrom
        (l1 ++ (repo, RepoSource.walk (pre ++ WalkEntry.unresolvable e :: rest)) :: l2)
        cl now).1.commits
      = (multiRepoHistoryFrom (l1 ++ l2) cl now).1.commits) := by
  have h := walkLoop_unresolvable cl now repo pre e rest hpre
  exact ⟨h.1, h.2, fun l1 l2 => snapshot_commits_drop_failed cl now l1 l2 _ h.1⟩

/-- Witness for C1 as amended, at a concrete input: one included commit
before the unresolvable id. -/
theorem unresolvable_commit_drops_repo_witness :
    (∀ x ∈ [WalkEntry.resolved (commitAt 0)],
      ∃ cd, x = WalkEntry.resolved cd ∧ (classify cNone 0 cd).2 = false) ∧
    (((walkLoop cNone 0 repoA
        ([WalkEntry.resolved (commitAt 0)] ++ WalkEntry.unresolvable "gone" :: [])).1 = none) ∧
    ((⟨repoA.relPath, "Failed to find commit: " ++ "gone"⟩ : LogEntry)
      ∈ (walkLoop cNone 0 repoA
          ([WalkEntry.resolved (commitAt 0)] ++ WalkEntry.unresolvable "gone" :: [])).2) ∧
    (∀ l1 l2, (multiRepoHistoryFrom
        (l1 ++ (repoA, RepoSource.walk
          ([WalkEntry.resolved (commitAt 0)] ++ WalkEntry.unresolvable "gone" :: [])) :: l2)
        cNone 0).1.commits
      = (multiRepoHistoryFrom (l1 ++ l2) cNone 0).1.commits)) := by
  have hpre : ∀ x ∈ [WalkEntry.resolved (commitAt 0)],
      ∃ cd, x = WalkEntry.resolved cd ∧ (classify cNone 0 cd).2 = false := by
    intro x hx
    rw [List.mem_singleton] at hx
    exact ⟨commitAt 0, hx, by decide⟩
  exact ⟨hpre, unresolvable_commit_drops_repo cNone 0 repoA _ "gone" [] hpre⟩

/-- C6: a repository that fails to open contributes zero commits, the
failure is logged with that repository's path, and the snapshot's commits
are exactly those the other repositories produce (the scan itself always
returns a snapshot — in the code the `Result` is always `Ok`). -/
theorem failed_repo_isolated (l1 l2 : List (Repo × RepoSource)) (r : Repo)
    (e : String) (cl : Classifier) (now : Int) :
    ((scanRepo cl now (r, RepoSource.openFailed e)).1 = none) ∧
    ((multiRepoHistoryFrom (l1 ++ (r, RepoSource.openFailed e) :: l2) cl now).1.commits
      = (multiRepoHistoryFrom (l1 ++ l2) cl now).1.commits) ∧
    ((⟨r.relPath, "Failed to open: " ++ e⟩ : LogEntry)
      ∈ (multiRepoHistoryFrom (l1 ++ (r, RepoSource.openFailed e) :: l2) cl now).2) := by
  refine ⟨rfl, snapshot_commits_drop_failed cl now l1 l2 _ rfl, ?_⟩
  exact snapshot_log_mem cl now l1 l2 _ _ (by simp [scanRepo])

/-- C2: in every snapshot the commit sequence is sorted descending by
commit time: every adjacent pair satisfies
`c[i].commit_time ≥ c[i+1].commit_time` (on the timestamp's seconds; the
order of commits with equal timestamps is left unspecified by the unstable
sort). -/
theorem snapshot_sorted_descending (input : List (Repo × RepoSource))
    (cl : Classifier) (now : Int) :
    List.Chain' (fun a b => b.timestamp.seconds ≤ a.timestamp.seconds)
      (multiRepoHistoryFrom input cl now).1.commits := by
  have hp := List.sorted_mergeSort timeGe_trans timeGe_total
    ((input.map (scanRepo cl now)).filterMap Prod.fst).flatten
  have hp2 : List.Pairwise (fun a b => b.timestamp.seconds ≤ a.timestamp.seconds)
      (multiRepoHistoryFrom input cl now).1.commits := by
    refine List.Pairwise.imp ?_ hp
    intro a b hab
    simp only [timeGe, decide_eq_true_eq] at hab
    omega
  exact hp2.chain'

/-- C7: the snapshot's repository sequence is exactly the caller's input
list in its original order — both in the sequential model and in the
schedule-explicit model for ANY completion schedule, so it is independent
of the order in which the per-repository scans complete. -/
theorem snapshot_repos_input_order (input : List (Repo × RepoSource))
    (cl : Classifier) (now : Int) (sched : List Nat) :
    ((multiRepoHistoryFrom input cl now).1.repos = input.map Prod.fst) ∧
    ((scanScheduled input cl now sched).repos = input.map Prod.fst) :=
  ⟨rfl, rfl⟩


/-- `fillSched` preserves the number of slots. -/
lemma fillSched_length (f : Nat → List RepoCommit) (sched : List Nat) :
    ∀ slots, (fillSched f sched slots).length = slots.length := by
  induction sched with
  | nil => intro slots; rfl
  | cons j rest ih =>
    intro slots
    simp [fillSched, ih]

/-- After processing a schedule, a slot holds its value exactly when its
index was scheduled, and is untouched otherwise. -/
lemma fillSched_getElem (f : Nat → List RepoCommit) (sched : List Nat) :
    ∀ (slots : List (Option (List RepoCommit))) (i : Nat), i < slots.length →
      (fillSched f sched slots)[i]?
        = if i ∈ sched then some (some (f i)) else slots[i]? := by
  induction sched with
  | nil =>
    intro slots i hi
    simp [fillSched]
  | cons j rest ih =>
    intro slots i hi
    rw [fillSched, ih _ i (by simpa using hi)]
    by_cases hr : i ∈ rest
    · simp [hr]
    · by_cases hj : i = j
      · subst hj
        simp [hr, List.getElem?_set, hi]
      · have hji : ¬ j = i := fun h => hj h.symm
        simp [hr, hj, hji, List.getElem?_set]

/-- The collected commit lists, expressed per repository: a failed
repository's `None` result contributes the empty list. -/
lemma collected_eq_contributions (input : List (Repo × RepoSource))
    (cl : Classifier) (now : Int) :
    ((input.map (scanRepo cl now)).filterMap Prod.fst).flatten
      = (input.map (repoContribution cl now)).flatten := by
  induction input with
  | nil => rfl
  | cons x rest ih =>
    rw [List.map_cons, List.map_cons, List.flatten_cons]
    cases hx : (scanRepo cl now x).1 with
    | none =>
      rw [List.filterMap_cons_none hx, ih]
      simp [repoContribution, hx]
    | some cs =>
      rw [List.filterMap_cons_some hx, List.flatten_cons, ih]
      simp [repoContribution, hx]

/-- C8: the scan is deterministic over worker scheduling. For every order
in which the workers can complete the repositories — every permutation of
the input indices — the schedule-explicit scan produces exactly the
snapshot of the sequential model: the same commit set, the same final
order, the same snapshot fields. With the "now" reference fixed, both
models are pure functions of the repository contents and the configuration,
so two runs with identical inputs agree. -/
theorem scan_schedule_independent (input : List (Repo × RepoSource))
    (cl : Classifier) (now : Int) (sched : List Nat)
    (hperm : sched.Perm (List.range input.length)) :
    scanScheduled input cl now sched = (multiRepoHistoryFrom input cl now).1 := by
  have hmem : ∀ i, i ∈ sched ↔ i < input.length := by
    intro i
    rw [hperm.mem_iff, List.mem_range]
  have hslots : fillSched (fun i => match input[i]? with
      | some r => repoContribution cl now r
      | none => []) sched (List.replicate input.length none)
      = input.map (fun r => some (repoContribution cl now r)) := by
    apply List.ext_getElem?
    intro n
    by_cases hn : n < input.length
    · rw [fillSched_getElem _ _ _ n (by simpa using hn)]
      rw [if_pos ((hmem n).2 hn)]
      rw [List.getElem?_map, List.getElem?_eq_getElem hn]
      simp [List.getElem?_eq_getElem hn]
    · have h1 : (List.replicate input.length
          (none : Option (List RepoCommit))).length ≤ n := by
        simpa using Nat.le_of_not_lt hn
      rw [List.getElem?_eq_none ((fillSched_length _ _ _).trans_le h1),
        List.getElem?_eq_none (by simpa using Nat.le_of_not_lt hn)]
  have hcollect : ((input.map (fun r => some (repoContribution cl now r))).filterMap id)
      = input.map (repoContribution cl now) := by
    rw [List.filterMap_map]
    have h2 : (id ∘ fun r => some (repoContribution cl now r))
        = some ∘ (repoContribution cl now) := rfl
    rw [h2, List.filterMap_eq_map]
  show assembleSnapshot input _ = (assembleSnapshot input _, _).1
  rw [hslots, hcollect, collected_eq_contributions]

/-- A two-repository input for the scheduling witness. -/
def inputW : List (Repo × RepoSource) :=
  [(repoA, RepoSource.walk [WalkEntry.resolved (commitAt 0)]),
   (repoB, RepoSource.openFailed "boom")]

/-- Witness for C8: completing the two repositories in reversed order
yields the sequential snapshot. -/
theorem scan_schedule_independent_witness :
    ([1, 0] : List Nat).Perm (List.range inputW.length) ∧
    scanScheduled inputW cNone 0 [1, 0] = (multiRepoHistoryFrom inputW cNone 0).1 :=
  ⟨by decide, scan_schedule_independent inputW cNone 0 [1, 0] (by decide)⟩

/-- Rust's sign-aware zero-padded integer formatting: `{:0W}` and `{:+0W}`.
The sign is printed first and the zeros pad after it, and the minimum width
`w` counts the sign character. -/
def fmtSigned (w : Nat) (plus : Bool) (n : Int) : String :=
  let sign : String := if n < 0 then "-" else if plus then "+" else ""
  let digits : String := toString n.natAbs
  sign ++ ⟨List.replicate (w - (sign.length + digits.length)) '0'⟩ ++ digits

/-- Civil calendar date (year, month, day) of a day count relative to
1970-01-01, the conversion chrono performs when `Datelike::year/month/day`
are read off a `DateTime` (standard proleptic-Gregorian algorithm). -/
def civilFromDays (z0 : Int) : Int × Nat × Nat :=
  let z := z0 + 719468
  let era := z.ediv 146097
  let doe := (z - era * 146097).toNat
  let yoe := (doe - doe / 1460 + doe / 36524 - doe / 146096) / 365
  let y := (yoe : Int) + era * 400
  let doy := doe - (365 * yoe + yoe / 4 - yoe / 100)
  let mp := (5 * doy + 2) / 153
  let d := doy - (153 * mp + 2) / 5 + 1
  let m := if mp < 10 then mp + 3 else mp - 9
  (if m ≤ 2 then y + 1 else y, m, d)

/-- `RepoCommit::time_as_str` (src/model.rs lines 187-201): converts the
git time to a `DateTime` in its own fixed offset (`as_datetime`,
src/utils.rs: offset = `offset_minutes * 60` seconds east), reads the
local civil date and time, and renders
`"{:04}-{:02}-{:02} {:02}:{:02} {:+02}{:02}"` with the offset duration's
whole hours and its leftover minutes. -/
def timeAsStr (t : GitTime) : String :=
  let offsetSecs : Int := t.offsetMinutes * 60
  let localSecs := t.seconds + offsetSecs
  let days := localSecs.ediv 86400
  let sod := (localSecs.emod 86400).toNat
  let ymd := civilFromDays days
  let numHours := offsetSecs.tdiv 3600
  let numMinutes := offsetSecs.tdiv 60
  fmtSigned 4 false ymd.1 ++ "-" ++ fmtSigned 2 false (ymd.2.1 : Int) ++ "-" ++
    fmtSigned 2 false (ymd.2.2 : Int) ++ " " ++
    fmtSigned 2 false ((sod / 3600 : Nat) : Int) ++ ":" ++
    fmtSigned 2 false ((sod % 3600 / 60 : Nat) : Int) ++ " " ++
    fmtSigned 2 true numHours ++ fmtSigned 2 false (numMinutes - numHours * 60)

/-- Follows the spec's words for the Commit Date column: the rendered value
must END in `±HHMM` — a sign followed by two hour digits and two minute
digits. -/
def offsetFieldSpecOk (s : String) : Bool :=
  match s.data.reverse with
  | m2 :: m1 :: h2 :: h1 :: sg :: _ =>
      (sg == '+' || sg == '-') && h1.isDigit && h2.isDigit && m1.isDigit && m2.isDigit
  | _ => false

/-- C9 (code bug, evaluated at the failing input): a commit at Unix time 0
with offset +60 minutes is exported (via `model_into_spreadsheet`, which
writes `commit.time_as_str()` into the Commit Date column) as
`"1970-01-01 01:00 +100"` — NOT in the claimed `±HHMM` form `"+0100"`:
Rust's `{:+02}` counts the sign toward the width 2, so the hour field
carries a single digit whenever the offset's hours are below 10 in
magnitude (the intended rendering, accepted by the spec's format check in
the third conjunct, would need `{:+03}`). -/
theorem time_as_str_offset_malformed :
    (timeAsStr ⟨0, 60⟩ = "1970-01-01 01:00 +100") ∧
    (offsetFieldSpecOk (timeAsStr ⟨0, 60⟩) = false) ∧
    (offsetFieldSpecOk "1970-01-01 01:00 +0100" = true) := by
  decide
